import Mathlib

/-
  Verification development for the SPDK DMA device framework
  (include/spdk/dma.h): memory-domain registry, translation engine and
  fetch engine.

  The repository ships only the declarative header; the behaviour of each
  function is specified by the header's doc comments and the design
  specification.  Operations are therefore modelled from the spec, as
  noted on each definition.  Pointers and opaque handles are modelled as
  natural numbers, C strings as `String`, negated-errno status codes as
  `Int`, and the asynchronous completion callback as the list of
  invocations the provider performs on it.
-/

namespace Spdk

/-- Model of `enum spdk_dma_device_type` (src/include/spdk/dma.h lines 54-61):
the type tag of the DMA device that can access a memory domain. -/
inductive spdk_dma_device_type where
  | SPDK_DMA_DEVICE_TYPE_RDMA
  | SPDK_DMA_DEVICE_TYPE_DMA
deriving DecidableEq

/-- Model of the reserved identifier macro `SPDK_RDMA_DMA_DEVICE`
(src/include/spdk/dma.h line 52): the id of the SPDK internal DMA device of
RDMA type. -/
def SPDK_RDMA_DMA_DEVICE : String := "SPDK_RDMA_DMA_DEVICE"

/-- Model of `struct iovec`: one (address, length) entry of a scattered
descriptor list.  Addresses are modelled as natural numbers. -/
structure iovec where
  iov_base : Nat
  iov_len : Nat
deriving DecidableEq

/-- Model of `struct spdk_memory_domain_translation_ctx`
(src/include/spdk/dma.h lines 112-121): ancillary per-call data for the
destination domain, with the declared-size ABI tag and the RDMA variant's
opaque `ibv_qp` handle. -/
structure spdk_memory_domain_translation_ctx where
  size : Nat
  rdma_ibv_qp : Nat
deriving DecidableEq

/-- Model of `struct spdk_memory_domain_translation_result`
(src/include/spdk/dma.h lines 95-110): the destination-domain descriptor of
the translated bytes.  `dst_domain` holds the handle of the destination
domain echoed back by the provider; the union's RDMA variant is flattened
into the two key fields. -/
structure spdk_memory_domain_translation_result where
  size : Nat
  addr : Nat
  len : Nat
  dst_domain : Nat
  rdma_lkey : Nat
  rdma_rkey : Nat
deriving DecidableEq

/-- One invocation of the completion callback
`spdk_memory_domain_fetch_data_cpl_cb` (src/include/spdk/dma.h line 73):
the callback receives the user context `cpl_cb_arg`, the iovs holding the
result, and the final status `rc` of the asynchronous fetch. -/
structure cpl_invocation where
  ctx : Nat
  iov : List iovec
  rc : Int
deriving DecidableEq

/-- Model of the provider function type `spdk_memory_domain_fetch_data_cb`
(src/include/spdk/dma.h lines 90-93).  Arguments: source domain handle,
source domain context, source iov list, destination iov list, and the
`cpl_cb_arg` to be handed to the completion callback.  The result is the
synchronous start-status together with the list of invocations the provider
performs on the completion callback (iov counts are the list lengths). -/
def spdk_memory_domain_fetch_data_cb : Type :=
  Nat → Nat → List iovec → List iovec → Nat → Int × List cpl_invocation

/-- Model of the provider function type
`spdk_memory_domain_translate_memory_cb` (src/include/spdk/dma.h lines
135-138).  Arguments: source domain handle, source domain context,
destination domain handle, destination domain ancillary context, address
and length.  The result is the status together with the translation result
the provider would store through the out-pointer. -/
def spdk_memory_domain_translate_memory_cb : Type :=
  Nat → Nat → Nat → spdk_memory_domain_translation_ctx → Nat → Nat →
    Int × spdk_memory_domain_translation_result

/-- Modelled from the spec: the Domain Entity held per registered memory
domain (`struct spdk_memory_domain`, opaque in the header).  `handle`
models the entity's pointer identity, `ctx` the stored (not copied)
reference to the caller-owned domain context, `id` the entity-owned copy
of the identifier, and the two optional capabilities model the translate
and fetch function pointers. -/
structure spdk_memory_domain where
  handle : Nat
  device_type : spdk_dma_device_type
  ctx : Option Nat
  id : String
  translate_cb : Option spdk_memory_domain_translate_memory_cb
  fetch_cb : Option spdk_memory_domain_fetch_data_cb

/-- Modelled from the spec: the process-wide Domain Registry, an ordered
collection of Domain Entities in insertion order, plus the next fresh
handle (models allocation of distinct entity pointers). -/
structure registry where
  domains : List spdk_memory_domain
  next_handle : Nat

/-- The empty registry. -/
def registry.empty : registry := { domains := [], next_handle := 0 }

/-- Errno value for invalid argument, as used by the negated-errno status
space of the header. -/
def EINVAL : Int := 22

/-- Errno value for unsupported operation, as used by the negated-errno
status space of the header. -/
def ENOTSUP : Int := 95

/-- Modelled from the spec: `spdk_memory_domain_create`
(src/include/spdk/dma.h lines 165-166; implementation not in src/).  Fails
with the invalid-argument status when `id` is null (`none`) or empty and
registers nothing; otherwise allocates a fresh entity with the given type,
stored context reference and copied id, both providers unset, appends it
to the registry and returns success together with the new handle.
Allocation failure (out of memory) is not modelled. -/
def spdk_memory_domain_create (r : registry) (t : spdk_dma_device_type)
    (ctx : Option Nat) (id : Option String) :
    Int × registry × Option spdk_memory_domain :=
  match id with
  | none => (-EINVAL, r, none)
  | some s =>
    if s = "" then (-EINVAL, r, none)
    else
      let d : spdk_memory_domain :=
        { handle := r.next_handle, device_type := t, ctx := ctx, id := s,
          translate_cb := none, fetch_cb := none }
      (0, { domains := r.domains ++ [d], next_handle := r.next_handle + 1 }, some d)

/-- Modelled from the spec: `spdk_memory_domain_set_translation`
(src/include/spdk/dma.h lines 174-175; implementation not in src/).
Unconditionally overwrites the translate capability; a null (`none`)
provider removes it. -/
def spdk_memory_domain_set_translation (d : spdk_memory_domain)
    (cb : Option spdk_memory_domain_translate_memory_cb) : spdk_memory_domain :=
  { d with translate_cb := cb }

/-- Modelled from the spec: `spdk_memory_domain_set_fetch`
(src/include/spdk/dma.h lines 183-184; implementation not in src/).
Unconditionally overwrites the fetch capability; a null (`none`) provider
removes it. -/
def spdk_memory_domain_set_fetch (d : spdk_memory_domain)
    (cb : Option spdk_memory_domain_fetch_data_cb) : spdk_memory_domain :=
  { d with fetch_cb := cb }

/-- Modelled from the spec: `spdk_memory_domain_get_context`
(src/include/spdk/dma.h line 192; implementation not in src/).  Returns
the context reference passed at creation. -/
def spdk_memory_domain_get_context (d : spdk_memory_domain) : Option Nat :=
  d.ctx

/-- Modelled from the spec: `spdk_memory_domain_get_dma_device_type`
(src/include/spdk/dma.h line 200; implementation not in src/).  Returns
the device type passed at creation. -/
def spdk_memory_domain_get_dma_device_type (d : spdk_memory_domain) :
    spdk_dma_device_type :=
  d.device_type

/-- Modelled from the spec: `spdk_memory_domain_get_dma_device_id`
(src/include/spdk/dma.h line 207; implementation not in src/).  Returns
the entity-owned id string. -/
def spdk_memory_domain_get_dma_device_id (d : spdk_memory_domain) : String :=
  d.id

/-- Modelled from the spec: `spdk_memory_domain_destroy`
(src/include/spdk/dma.h line 214; implementation not in src/).  Removes
the entity (the node with `d`'s identity, modelled by its handle) from the
ordered collection; other entities keep their relative order.  The
caller-owned context is untouched (the model stores only a reference). -/
def spdk_memory_domain_destroy (r : registry) (d : spdk_memory_domain) : registry :=
  { r with domains := r.domains.eraseP (fun e => e.handle == d.handle) }

/-- Forward filtered scan shared by get_first and get_next: first element
in order, or first whose id equals the filter when one is given. -/
def find_matching (l : List spdk_memory_domain) (id : Option String) :
    Option spdk_memory_domain :=
  match id with
  | none => l.head?
  | some f => l.find? (fun d => d.id == f)

/-- The strict suffix of the collection after the entity with the given
handle (models resuming a TAILQ scan at the node after `prev`). -/
def after_handle (l : List spdk_memory_domain) (h : Nat) :
    List spdk_memory_domain :=
  match l with
  | [] => []
  | d :: rest => if d.handle == h then rest else after_handle rest h

/-- Modelled from the spec: `spdk_memory_domain_get_first`
(src/include/spdk/dma.h line 268; implementation not in src/).  Returns
the first registered domain in insertion order, or with an id filter the
first whose id matches, or none. -/
def spdk_memory_domain_get_first (r : registry) (id : Option String) :
    Option spdk_memory_domain :=
  find_matching r.domains id

/-- Modelled from the spec: `spdk_memory_domain_get_next`
(src/include/spdk/dma.h lines 278-279; implementation not in src/).
Resumes the same forward filtered scan strictly after `prev`'s position. -/
def spdk_memory_domain_get_next (r : registry) (prev : spdk_memory_domain)
    (id : Option String) : Option spdk_memory_domain :=
  find_matching (after_handle r.domains prev.handle) id

/-- Modelled from the spec: `spdk_memory_domain_translate_data`
(src/include/spdk/dma.h lines 255-257; implementation not in src/).  If
the source domain has no translate capability, fails with the
unsupported-operation status, leaving the caller's result and the domain
untouched.  Otherwise invokes the provider synchronously with the caller's
arguments and returns exactly its status; the result out-parameter holds
the provider's produced result on success only.  The source domain is
returned so theorems can state that the engine never mutates it. -/
def spdk_memory_domain_translate_data (src : spdk_memory_domain)
    (src_ctx : Nat) (dst : spdk_memory_domain)
    (dst_ctx : spdk_memory_domain_translation_ctx) (addr len : Nat)
    (result : spdk_memory_domain_translation_result) :
    Int × spdk_memory_domain_translation_result × spdk_memory_domain :=
  match src.translate_cb with
  | none => (-ENOTSUP, result, src)
  | some cb =>
    let out := cb src.handle src_ctx dst.handle dst_ctx addr len
    (out.1, if out.1 = 0 then out.2 else result, src)

/-- Modelled from the spec: `spdk_memory_domain_fetch_data`
(src/include/spdk/dma.h lines 231-233; implementation not in src/).  If
the source domain has no fetch capability, fails with the
unsupported-operation status and the completion callback is never invoked
(empty invocation list).  Otherwise invokes the provider synchronously to
start the copy and returns its start-status together with the invocations
the provider performs on the completion callback. -/
def spdk_memory_domain_fetch_data (src : spdk_memory_domain)
    (src_ctx : Nat) (src_iov : List iovec) (dst_iov : List iovec)
    (cpl_cb_arg : Nat) : Int × List cpl_invocation :=
  match src.fetch_cb with
  | none => (-ENOTSUP, [])
  | some cb => cb src.handle src_ctx src_iov dst_iov cpl_cb_arg

/-! Concrete fixtures used by the test-scenario theorems and witnesses. -/

/-- The first domain produced by registering ids "A", "A", "B" in order
into the empty registry. -/
def domA0 : spdk_memory_domain :=
  { handle := 0, device_type := .SPDK_DMA_DEVICE_TYPE_DMA, ctx := none,
    id := "A", translate_cb := none, fetch_cb := none }

/-- The second domain (second "A") of the "A", "A", "B" scenario. -/
def domA1 : spdk_memory_domain :=
  { handle := 1, device_type := .SPDK_DMA_DEVICE_TYPE_DMA, ctx := none,
    id := "A", translate_cb := none, fetch_cb := none }

/-- The third domain ("B") of the "A", "A", "B" scenario. -/
def domB2 : spdk_memory_domain :=
  { handle := 2, device_type := .SPDK_DMA_DEVICE_TYPE_DMA, ctx := none,
    id := "B", translate_cb := none, fetch_cb := none }

/-- The registry obtained by registering ids "A", "A", "B" in that order. -/
def regAAB : registry :=
  (spdk_memory_domain_create
    (spdk_memory_domain_create
      (spdk_memory_domain_create registry.empty
        .SPDK_DMA_DEVICE_TYPE_DMA none (some "A")).2.1
      .SPDK_DMA_DEVICE_TYPE_DMA none (some "A")).2.1
    .SPDK_DMA_DEVICE_TYPE_DMA none (some "B")).2.1

/-- A caller-initialised translation result, used to observe that failing
translate calls leave the result untouched. -/
def res0 : spdk_memory_domain_translation_result :=
  { size := 0, addr := 0, len := 0, dst_domain := 0,
    rdma_lkey := 0, rdma_rkey := 0 }

/-- Fetch provider stub that fails to start with status -5 and never
invokes the completion callback. -/
def failFetchCb : spdk_memory_domain_fetch_data_cb :=
  fun _ _ _ _ _ => (-5, [])

/-- Domain whose only capability is the failing fetch stub. -/
def failDom : spdk_memory_domain :=
  { handle := 7, device_type := .SPDK_DMA_DEVICE_TYPE_RDMA, ctx := none,
    id := "X", translate_cb := none, fetch_cb := some failFetchCb }

/-- Fetch provider stub that starts successfully and synchronously invokes
the completion callback exactly once with success status. -/
def okFetchCb : spdk_memory_domain_fetch_data_cb :=
  fun _ _ _ dst arg => (0, [{ ctx := arg, iov := dst, rc := 0 }])

/-- Domain whose fetch capability is the successful synchronous stub. -/
def okDom : spdk_memory_domain :=
  { handle := 8, device_type := .SPDK_DMA_DEVICE_TYPE_RDMA, ctx := none,
    id := "Y", translate_cb := none, fetch_cb := some okFetchCb }

/-- Pure, deterministic translate provider stub. -/
def pureTranslateCb : spdk_memory_domain_translate_memory_cb :=
  fun _ _ dh _ a l =>
    (0, { size := 48, addr := a + 1000, len := l, dst_domain := dh,
          rdma_lkey := 1, rdma_rkey := 2 })

/-- Fetch provider stub failing with a distinct status, used to observe
verbatim status pass-through. -/
def failFetchCb17 : spdk_memory_domain_fetch_data_cb :=
  fun _ _ _ _ _ => (-17, [])

/-- Domain whose only capability is the pure translate stub. -/
def translateOnlyDom : spdk_memory_domain :=
  { handle := 10, device_type := .SPDK_DMA_DEVICE_TYPE_RDMA, ctx := some 3,
    id := "T", translate_cb := some pureTranslateCb, fetch_cb := none }

/-- Domain whose only capability is the failing fetch stub. -/
def fetchOnlyDom : spdk_memory_domain :=
  { handle := 11, device_type := .SPDK_DMA_DEVICE_TYPE_RDMA, ctx := some 3,
    id := "F", translate_cb := none, fetch_cb := some failFetchCb17 }

/-- The domain registered under the reserved RDMA device id. -/
def rdmaDom : spdk_memory_domain :=
  { handle := 0, device_type := .SPDK_DMA_DEVICE_TYPE_RDMA, ctx := none,
    id := SPDK_RDMA_DMA_DEVICE, translate_cb := none, fetch_cb := none }

/-- Registry holding only the reserved RDMA-id domain. -/
def rdmaReg : registry :=
  (spdk_memory_domain_create registry.empty
    .SPDK_DMA_DEVICE_TYPE_RDMA none (some SPDK_RDMA_DMA_DEVICE)).2.1

/-! Helper lemmas about the scan and removal operations. -/

/-- Anything returned by the filtered scan is a member of the scanned
collection. -/
lemma find_matching_mem {l : List spdk_memory_domain} {f : Option String}
    {e : spdk_memory_domain} (h : find_matching l f = some e) : e ∈ l := by
  cases f with
  | none =>
    have h' : l.head? = some e := h
    exact List.mem_of_mem_head? h'
  | some s =>
    have h' : List.find? (fun d => d.id == s) l = some e := h
    exact List.mem_of_find?_eq_some h'

/-- A match returned by the filtered scan has the filtered id. -/
lemma find_matching_id {l : List spdk_memory_domain} {f : String}
    {e : spdk_memory_domain} (h : find_matching l (some f) = some e) :
    e.id = f := by
  have h' : List.find? (fun d => d.id == f) l = some e := h
  have hp : (e.id == f) = true :=
    List.find?_some (p := fun d : spdk_memory_domain => d.id == f) h'
  exact eq_of_beq hp

/-- The suffix after a handle only contains members of the collection. -/
lemma after_handle_subset (l : List spdk_memory_domain) (h : Nat) :
    ∀ e ∈ after_handle l h, e ∈ l := by
  induction l with
  | nil => simp [after_handle]
  | cons a t ih =>
    intro e he
    by_cases hah : a.handle = h
    · have hrw : after_handle (a :: t) h = t := by simp [after_handle, hah]
      rw [hrw] at he
      exact List.mem_cons_of_mem _ he
    · have hrw : after_handle (a :: t) h = after_handle t h := by
        simp [after_handle, hah]
      rw [hrw] at he
      exact List.mem_cons_of_mem _ (ih e he)

/-- Removing the entity with a given handle from a collection whose
handles are distinct leaves no member carrying that handle. -/
lemma not_handle_mem_eraseP {d : spdk_memory_domain} :
    ∀ (l : List spdk_memory_domain),
      (l.map (fun e => e.handle)).Nodup → d ∈ l →
      ∀ e ∈ l.eraseP (fun x => x.handle == d.handle), e.handle ≠ d.handle := by
  intro l
  induction l with
  | nil => intro _ hd; exact absurd hd (List.not_mem_nil d)
  | cons a t ih =>
    intro hnd hd e he heq
    have hnd' : a.handle ∉ t.map (fun e => e.handle) ∧
        (t.map (fun e => e.handle)).Nodup := by
      simpa [List.nodup_cons] using hnd
    by_cases hpa : (a.handle == d.handle) = true
    · rw [List.eraseP_cons_of_pos
        (p := fun x : spdk_memory_domain => x.handle == d.handle) hpa] at he
      have had : a.handle = d.handle := eq_of_beq hpa
      exact hnd'.1 (by
        rw [had, ← heq]
        exact List.mem_map_of_mem _ he)
    · rw [List.eraseP_cons_of_neg
        (p := fun x : spdk_memory_domain => x.handle == d.handle) hpa] at he
      have had : a.handle ≠ d.handle := fun hcontra => hpa (beq_iff_eq.mpr hcontra)
      have hdt : d ∈ t := by
        rcases List.mem_cons.mp hd with rfl | hdt
        · exact absurd rfl had
        · exact hdt
      rcases List.mem_cons.mp he with rfl | het
      · exact had heq
      · exact ih hnd'.2 hdt e het heq

/-! Claim theorems. -/

/-- C1: for every fetch call whose synchronous return value is
non-success — including the unsupported-operation failure when the source
domain's fetch capability is unset — the completion notifier is never
invoked for that call (the invocation list is empty), and the non-success
status of a provider that fails to start is returned verbatim to the
caller.  The hypothesis `hcb` is the documented provider contract: the
implementation must call the completion callback only when it returns 0. -/
theorem fetch_failure_no_notifier
    (src : spdk_memory_domain) (src_ctx : Nat)
    (si di : List iovec) (arg : Nat)
    (hcb : ∀ cb, src.fetch_cb = some cb →
      (cb src.handle src_ctx si di arg).1 ≠ 0 →
      (cb src.handle src_ctx si di arg).2 = [])
    (hfail : (spdk_memory_domain_fetch_data src src_ctx si di arg).1 ≠ 0) :
    (spdk_memory_domain_fetch_data src src_ctx si di arg).2 = [] ∧
    (src.fetch_cb = none →
      (spdk_memory_domain_fetch_data src src_ctx si di arg).1 = -ENOTSUP) ∧
    (∀ cb, src.fetch_cb = some cb →
      (spdk_memory_domain_fetch_data src src_ctx si di arg).1 =
        (cb src.handle src_ctx si di arg).1) := by
  cases hsrc : src.fetch_cb with
  | none =>
    refine ⟨?_, fun _ => ?_, fun cb hc => ?_⟩
    · simp [spdk_memory_domain_fetch_data, hsrc]
    · simp [spdk_memory_domain_fetch_data, hsrc]
    · exact absurd hc (by simp)
  | some cb =>
    have heq : spdk_memory_domain_fetch_data src src_ctx si di arg =
        cb src.handle src_ctx si di arg := by
      simp [spdk_memory_domain_fetch_data, hsrc]
    refine ⟨?_, fun hnone => ?_, fun cb' hc' => ?_⟩
    · rw [heq]
      exact hcb cb hsrc (by rw [heq] at hfail; exact hfail)
    · exact absurd hnone (by simp)
    · have : cb = cb' := by injection hc'
      rw [heq, this]

/-- C1 witness: with the failing stub provider, fetch returns the stub's
status -5 and the completion callback is never invoked. -/
theorem fetch_failure_no_notifier_witness :
    (spdk_memory_domain_fetch_data failDom 0 [] [] 0).2 = [] ∧
    (spdk_memory_domain_fetch_data failDom 0 [] [] 0).1 = -5 := by
  have h := fetch_failure_no_notifier failDom 0 [] [] 0
    (fun cb hc => by
      have : failFetchCb = cb := by injection hc
      rw [← this]
      intro _
      rfl)
    (by decide)
  exact ⟨h.1, by
    have := h.2.2 failFetchCb rfl
    rw [this]
    rfl⟩

/-- C2: for every fetch call whose synchronous start-status is success,
with a provider that invokes the completion notifier exactly once with the
copy's final status, fetch returns success and the full invocation record
is passed through: the notifier fires exactly once, carrying the final
status `inv.rc`. -/
theorem fetch_success_notifier_once
    (src : spdk_memory_domain) (src_ctx : Nat) (si di : List iovec)
    (arg : Nat) (cb : spdk_memory_domain_fetch_data_cb)
    (inv : cpl_invocation)
    (hcb : src.fetch_cb = some cb)
    (hrun : cb src.handle src_ctx si di arg = (0, [inv])) :
    spdk_memory_domain_fetch_data src src_ctx si di arg = (0, [inv]) ∧
    (spdk_memory_domain_fetch_data src src_ctx si di arg).2.length = 1 := by
  have heq : spdk_memory_domain_fetch_data src src_ctx si di arg =
      cb src.handle src_ctx si di arg := by
    simp [spdk_memory_domain_fetch_data, hcb]
  rw [heq, hrun]
  exact ⟨rfl, rfl⟩

/-- C2 witness: with the successful synchronous stub provider, fetch
returns success and the notifier is invoked exactly once with success
status 0. -/
theorem fetch_success_notifier_once_witness :
    spdk_memory_domain_fetch_data okDom 1 [] [] 42 =
      (0, [{ ctx := 42, iov := [], rc := 0 }]) ∧
    (spdk_memory_domain_fetch_data okDom 1 [] [] 42).2.length = 1 :=
  fetch_success_notifier_once okDom 1 [] [] 42 okFetchCb
    { ctx := 42, iov := [], rc := 0 } rfl rfl

/-- C3: for every domain whose translate capability is unset — never
attached, or removed by setting a null provider — translate returns the
unsupported-operation status, leaves the caller's result untouched, and
invokes no provider (the whole output is already determined). -/
theorem translate_no_provider
    (src : spdk_memory_domain) (src_ctx : Nat) (dst : spdk_memory_domain)
    (dst_ctx : spdk_memory_domain_translation_ctx) (addr len : Nat)
    (result : spdk_memory_domain_translation_result)
    (h : src.translate_cb = none) :
    spdk_memory_domain_translate_data src src_ctx dst dst_ctx addr len result
      = (-ENOTSUP, result, src) ∧
    ∀ d : spdk_memory_domain,
      spdk_memory_domain_translate_data
          (spdk_memory_domain_set_translation d none)
          src_ctx dst dst_ctx addr len result
        = (-ENOTSUP, result, spdk_memory_domain_set_translation d none) := by
  constructor
  · simp [spdk_memory_domain_translate_data, h]
  · intro d
    rfl

/-- C3 witness: translating against a provider-less domain returns the
unsupported-operation status and the untouched caller result. -/
theorem translate_no_provider_witness :
    spdk_memory_domain_translate_data domA0 0 domB2
        { size := 0, rdma_ibv_qp := 0 } 4 8 res0
      = (-ENOTSUP, res0, domA0) :=
  (translate_no_provider domA0 0 domB2
    { size := 0, rdma_ibv_qp := 0 } 4 8 res0 rfl).1

/-- C4: for every domain whose translate capability is set, translate
invokes the provider synchronously with exactly the caller's arguments
and returns exactly the provider's status unmodified, and on success only
the provider's produced result (otherwise the caller's result is
untouched); independently, for every domain whose fetch capability is
set, fetch passes the provider's start-status and callback behaviour
through verbatim.  Each half is conditioned only on its own capability,
so domains with a single capability set are covered. -/
theorem provider_status_passthrough
    (src : spdk_memory_domain) (src_ctx : Nat) (dst : spdk_memory_domain)
    (dst_ctx : spdk_memory_domain_translation_ctx) (addr len : Nat)
    (result : spdk_memory_domain_translation_result)
    (si di : List iovec) (arg : Nat) :
    (∀ cb, src.translate_cb = some cb →
      spdk_memory_domain_translate_data src src_ctx dst dst_ctx addr len
          result
        = ((cb src.handle src_ctx dst.handle dst_ctx addr len).1,
           if (cb src.handle src_ctx dst.handle dst_ctx addr len).1 = 0
           then (cb src.handle src_ctx dst.handle dst_ctx addr len).2
           else result,
           src)) ∧
    (∀ fcb, src.fetch_cb = some fcb →
      spdk_memory_domain_fetch_data src src_ctx si di arg
        = fcb src.handle src_ctx si di arg) := by
  constructor
  · intro cb hcb
    simp [spdk_memory_domain_translate_data, hcb]
  · intro fcb hf
    simp [spdk_memory_domain_fetch_data, hf]

/-- C4 witness: on a domain with only the translate stub attached,
translate returns the stub's success status and produced result; on a
domain with only the failing fetch stub attached, fetch passes the stub's
-17 start-status through verbatim with no notifier invocation. -/
theorem provider_status_passthrough_witness :
    spdk_memory_domain_translate_data translateOnlyDom 3 domB2
        { size := 0, rdma_ibv_qp := 5 } 100 64 res0
      = (0, { size := 48, addr := 1100, len := 64, dst_domain := 2,
              rdma_lkey := 1, rdma_rkey := 2 }, translateOnlyDom) ∧
    spdk_memory_domain_fetch_data fetchOnlyDom 3 [] [] 9 = (-17, []) :=
  ⟨(provider_status_passthrough translateOnlyDom 3 domB2
      { size := 0, rdma_ibv_qp := 5 } 100 64 res0 [] [] 9).1
      pureTranslateCb rfl,
   (provider_status_passthrough fetchOnlyDom 3 domB2
      { size := 0, rdma_ibv_qp := 5 } 100 64 res0 [] [] 9).2
      failFetchCb17 rfl⟩

/-- C5: get_first returns the first registered entity in insertion order
(with a filter, the first whose id equals it), get_next resumes the same
forward filtered scan strictly after prev: in the "A", "A", "B" scenario,
get_first with no filter and with filter "A" both return the first "A",
get_next from it returns the second "A", get_next from that returns none,
and get_first with filter "B" returns the "B" entity; moreover any entity
returned by a filtered get_first is a registered entity whose id equals
the filter. -/
theorem get_scan_spec :
    regAAB.domains = [domA0, domA1, domB2] ∧
    spdk_memory_domain_get_first regAAB none = some domA0 ∧
    spdk_memory_domain_get_first regAAB (some "A") = some domA0 ∧
    spdk_memory_domain_get_next regAAB domA0 (some "A") = some domA1 ∧
    spdk_memory_domain_get_next regAAB domA1 (some "A") = none ∧
    spdk_memory_domain_get_first regAAB (some "B") = some domB2 ∧
    ∀ (r : registry) (f : String) (e : spdk_memory_domain),
      spdk_memory_domain_get_first r (some f) = some e →
      e ∈ r.domains ∧ spdk_memory_domain_get_dma_device_id e = f := by
  refine ⟨rfl, rfl, rfl, rfl, rfl, rfl, fun r f e hg => ?_⟩
  exact ⟨find_matching_mem hg, find_matching_id hg⟩

/-- C5 witness: the entity found by filtering on "B" indeed carries id
"B". -/
theorem get_scan_spec_witness :
    spdk_memory_domain_get_dma_device_id domB2 = "B" :=
  (get_scan_spec.2.2.2.2.2.2 regAAB "B" domB2 rfl).2

/-- C6: create with a null or empty id returns the invalid-argument
status and registers no entity — the registry is exactly as before the
call — so get_first over a previously empty registry still returns
none. -/
theorem create_invalid_id :
    (∀ (r : registry) (t : spdk_dma_device_type) (ctx : Option Nat),
      spdk_memory_domain_create r t ctx none = (-EINVAL, r, none)) ∧
    (∀ (r : registry) (t : spdk_dma_device_type) (ctx : Option Nat),
      spdk_memory_domain_create r t ctx (some "") = (-EINVAL, r, none)) ∧
    (∀ (t : spdk_dma_device_type) (ctx : Option Nat),
      spdk_memory_domain_get_first
        (spdk_memory_domain_create registry.empty t ctx (some "")).2.1 none
        = none) :=
  ⟨fun _ _ _ => rfl, fun _ _ _ => rfl, fun _ _ => rfl⟩

/-- C7: destroying an entity never invalidates the others: the remaining
collection is a sublist of the original (relative insertion order
unchanged), no remaining member carries the destroyed entity's identity,
get_first and get_next scans never return the destroyed entity, and
create only appends, leaving existing positions intact.  The hypotheses
state that handles (pointer identities) of registered entities are
distinct and that the destroyed entity was registered. -/
theorem destroy_preserves_others
    (r : registry) (d : spdk_memory_domain)
    (hnd : (r.domains.map (fun e => e.handle)).Nodup)
    (hd : d ∈ r.domains) :
    List.Sublist (spdk_memory_domain_destroy r d).domains r.domains ∧
    (∀ e ∈ (spdk_memory_domain_destroy r d).domains, e.handle ≠ d.handle) ∧
    (∀ (f : Option String) (e : spdk_memory_domain),
      spdk_memory_domain_get_first (spdk_memory_domain_destroy r d) f
        = some e → e.handle ≠ d.handle) ∧
    (∀ (p : spdk_memory_domain) (f : Option String)
        (e : spdk_memory_domain),
      spdk_memory_domain_get_next (spdk_memory_domain_destroy r d) p f
        = some e → e.handle ≠ d.handle) ∧
    (∀ (t : spdk_dma_device_type) (ctx : Option Nat) (s : Option String),
      ∃ tail, (spdk_memory_domain_create r t ctx s).2.1.domains
        = r.domains ++ tail) := by
  have hmem : ∀ e ∈ (spdk_memory_domain_destroy r d).domains,
      e.handle ≠ d.handle := by
    intro e he
    exact not_handle_mem_eraseP r.domains hnd hd e he
  refine ⟨List.eraseP_sublist _, hmem, fun f e hge => ?_, fun p f e hge => ?_,
    fun t ctx s => ?_⟩
  · exact hmem e (find_matching_mem hge)
  · exact hmem e
      (after_handle_subset (spdk_memory_domain_destroy r d).domains p.handle
        e (find_matching_mem hge))
  · cases s with
    | none => exact ⟨[], by simp [spdk_memory_domain_create]⟩
    | some s' =>
      by_cases hs : s' = ""
      · exact ⟨[], by simp [spdk_memory_domain_create, hs]⟩
      · exact ⟨[⟨r.next_handle, t, ctx, s', none, none⟩],
          by simp [spdk_memory_domain_create, hs]⟩

/-- C7 witness: destroying the second "A" of the "A", "A", "B" scenario
leaves a sublist of the original collection, and the entity found by a
subsequent filtered get_first is not the destroyed one. -/
theorem destroy_preserves_others_witness :
    List.Sublist (spdk_memory_domain_destroy regAAB domA1).domains
      regAAB.domains ∧
    domA0.handle ≠ domA1.handle := by
  have h := destroy_preserves_others regAAB domA1 (by decide)
    (List.mem_cons_of_mem _ (List.mem_cons_self _ _))
  exact ⟨h.1, h.2.2.1 (some "A") domA0 rfl⟩

/-- C8: the three fields read by get_context, get_dma_device_type and
get_dma_device_id are immutable after creation: create succeeds on a
non-empty id and the new entity returns the very context reference, the
device type and an id equal to the one passed in, and neither
set_translation nor set_fetch changes any of the three. -/
theorem accessors_immutable
    (r : registry) (t : spdk_dma_device_type) (ctx : Option Nat)
    (s : String) (h : s ≠ "") :
    (spdk_memory_domain_create r t ctx (some s)).1 = 0 ∧
    ((spdk_memory_domain_create r t ctx (some s)).2.2).map
      spdk_memory_domain_get_context = some ctx ∧
    ((spdk_memory_domain_create r t ctx (some s)).2.2).map
      spdk_memory_domain_get_dma_device_type = some t ∧
    ((spdk_memory_domain_create r t ctx (some s)).2.2).map
      spdk_memory_domain_get_dma_device_id = some s ∧
    (∀ cb, ((spdk_memory_domain_create r t ctx (some s)).2.2).map
      (fun d =>
        (spdk_memory_domain_get_context
          (spdk_memory_domain_set_translation d cb),
         spdk_memory_domain_get_dma_device_type
          (spdk_memory_domain_set_translation d cb),
         spdk_memory_domain_get_dma_device_id
          (spdk_memory_domain_set_translation d cb)))
      = some (ctx, t, s)) ∧
    (∀ cb, ((spdk_memory_domain_create r t ctx (some s)).2.2).map
      (fun d =>
        (spdk_memory_domain_get_context (spdk_memory_domain_set_fetch d cb),
         spdk_memory_domain_get_dma_device_type
          (spdk_memory_domain_set_fetch d cb),
         spdk_memory_domain_get_dma_device_id
          (spdk_memory_domain_set_fetch d cb)))
      = some (ctx, t, s)) := by
  simp only [spdk_memory_domain_create]
  rw [if_neg h]
  exact ⟨rfl, rfl, rfl, rfl, fun _ => rfl, fun _ => rfl⟩

/-- C8 witness: creating a domain with a fresh context reference and id
"dev" succeeds, and the accessors read back exactly the values passed. -/
theorem accessors_immutable_witness :
    (spdk_memory_domain_create registry.empty .SPDK_DMA_DEVICE_TYPE_RDMA
      (some 5) (some "dev")).1 = 0 ∧
    ((spdk_memory_domain_create registry.empty .SPDK_DMA_DEVICE_TYPE_RDMA
      (some 5) (some "dev")).2.2).map spdk_memory_domain_get_context
      = some (some 5) ∧
    ((spdk_memory_domain_create registry.empty .SPDK_DMA_DEVICE_TYPE_RDMA
      (some 5) (some "dev")).2.2).map spdk_memory_domain_get_dma_device_type
      = some .SPDK_DMA_DEVICE_TYPE_RDMA ∧
    ((spdk_memory_domain_create registry.empty .SPDK_DMA_DEVICE_TYPE_RDMA
      (some 5) (some "dev")).2.2).map spdk_memory_domain_get_dma_device_id
      = some "dev" := by
  have h := accessors_immutable registry.empty .SPDK_DMA_DEVICE_TYPE_RDMA
    (some 5) "dev" (by decide)
  exact ⟨h.1, h.2.1, h.2.2.1, h.2.2.2.1⟩

/-- C9: the translation engine is stateless and never mutates the domain,
so against a pure provider (every provider in this model is a pure
function) two consecutive translate calls with identical arguments return
equal statuses and equal translation results. -/
theorem translate_stateless_idempotent
    (src : spdk_memory_domain) (src_ctx : Nat) (dst : spdk_memory_domain)
    (dst_ctx : spdk_memory_domain_translation_ctx) (addr len : Nat)
    (result : spdk_memory_domain_translation_result) :
    (spdk_memory_domain_translate_data src src_ctx dst dst_ctx addr len
      result).2.2 = src ∧
    spdk_memory_domain_translate_data
        (spdk_memory_domain_translate_data src src_ctx dst dst_ctx addr len
          result).2.2
        src_ctx dst dst_ctx addr len result
      = spdk_memory_domain_translate_data src src_ctx dst dst_ctx addr len
          result := by
  have hs : (spdk_memory_domain_translate_data src src_ctx dst dst_ctx addr
      len result).2.2 = src := by
    cases h : src.translate_cb <;>
      simp [spdk_memory_domain_translate_data, h]
  exact ⟨hs, by rw [hs]⟩

/-- C10: the reserved id of the built-in RDMA-class domain is exactly the
string "SPDK_RDMA_DMA_DEVICE", and since id filtering is plain string
equality, a registry holding a domain registered under this id yields it
(or an earlier domain with the same id) from a filtered get_first. -/
theorem rdma_reserved_id :
    SPDK_RDMA_DMA_DEVICE = "SPDK_RDMA_DMA_DEVICE" ∧
    ∀ (r : registry) (d : spdk_memory_domain),
      d ∈ r.domains → d.id = SPDK_RDMA_DMA_DEVICE →
      (spdk_memory_domain_get_first r (some SPDK_RDMA_DMA_DEVICE)).map
          spdk_memory_domain_get_dma_device_id
        = some SPDK_RDMA_DMA_DEVICE := by
  refine ⟨rfl, fun r d hd hid => ?_⟩
  have hsome : (List.find? (fun e => e.id == SPDK_RDMA_DMA_DEVICE)
      r.domains).isSome = true :=
    List.find?_isSome.mpr ⟨d, hd, by simp [hid]⟩
  obtain ⟨e, he⟩ := Option.isSome_iff_exists.mp hsome
  have hg : spdk_memory_domain_get_first r (some SPDK_RDMA_DMA_DEVICE)
      = some e := he
  rw [hg]
  have hie : spdk_memory_domain_get_dma_device_id e = SPDK_RDMA_DMA_DEVICE :=
    find_matching_id hg
  show some (spdk_memory_domain_get_dma_device_id e)
    = some SPDK_RDMA_DMA_DEVICE
  rw [hie]

/-- C10 witness: a registry holding the built-in RDMA domain registered
under the reserved id yields an entity with that id from a filtered
get_first. -/
theorem rdma_reserved_id_witness :
    (spdk_memory_domain_get_first rdmaReg (some SPDK_RDMA_DMA_DEVICE)).map
        spdk_memory_domain_get_dma_device_id
      = some SPDK_RDMA_DMA_DEVICE :=
  rdma_reserved_id.2 rdmaReg rdmaDom (List.mem_cons_self rdmaDom []) rfl

end Spdk
